import Mathlib

/-!
A shallow embedding of the Traily browser extension's content-ingestion and
knowledge-graph-update pipeline (StorageManager, GeminiProcessor,
BackgroundService, ConfigManager), with theorems checking the design spec's
claims against it.

Modelling conventions:
* `chrome.storage.local` is modelled as an explicit `Storage` record holding
  the three persisted collections (processed content, nodes, edges); each
  storage-manager method becomes a pure function on the collection it touches
  (happy path: the `try/catch` wrappers around storage primitives only matter
  when the external key-value store itself fails, which is out of scope here).
* JS numbers are modelled as `ℚ` where fractional arithmetic occurs
  (importance scores, confidence) and as `Int`/`Nat` for timestamps and counts.
* `Math.random()` positions are cosmetic and passed in as parameters.
* The external fetch of the Gemini endpoint is abstracted by a `FetchOutcome`
  oracle; ECMA `JSON.parse` is abstracted by a `jsonParse` oracle returning a
  JSON value tree or a parse error.
-/

namespace Traily

/-! ## Data model (storageManager.ts interfaces) -/

/-- Discriminator `GraphNode.type` over the four modelled node kinds. -/
inductive NodeType
  | page | concept | author | domain
deriving DecidableEq, Repr

/-- Discriminator `GraphEdge.type` over the four modelled edge kinds. -/
inductive EdgeType
  | relates_to | authored_by | part_of | similar_to
deriving DecidableEq, Repr

/-- Cosmetic random placement assigned at node creation. -/
structure Position where
  x : ℚ
  y : ℚ
deriving DecidableEq, Repr

/-- The `data` payload of a `GraphNode`; optional fields are `Option`. -/
structure NodeData where
  label : String
  url : Option String := none
  summary : Option String := none
  timestamp : Option Int := none
  importance : ℚ
  domain : Option String := none
  contentType : Option String := none
  connectedPages : Option (List String) := none
deriving DecidableEq, Repr

/-- Node record `GraphNode` from storageManager.ts. -/
structure GraphNode where
  id : String
  type : NodeType
  data : NodeData
  position : Position
deriving DecidableEq, Repr

/-- The `data` payload of a `GraphEdge`. -/
structure EdgeData where
  strength : ℚ
  relationship : String
deriving DecidableEq, Repr

/-- Edge record `GraphEdge` from storageManager.ts. -/
structure GraphEdge where
  id : String
  source : String
  target : String
  type : EdgeType
  data : EdgeData
deriving DecidableEq, Repr

/-- Metadata carried by `CapturedContent` and `ProcessedContent`. -/
structure Metadata where
  domain : String
  contentType : String
  wordCount : ℚ
deriving DecidableEq, Repr

/-- Capture record `CapturedContent` produced per page visit (background.ts). -/
structure CapturedContent where
  url : String
  title : String
  content : String
  timestamp : Int
  metadata : Metadata
deriving DecidableEq, Repr

/-- Analysis record `GeminiAnalysis` from geminiProcessor.ts. -/
structure GeminiAnalysis where
  concepts : List String
  summary : String
  contentType : String
  author : Option String
  mainTopic : String
  relatedTopics : List String
  confidence : ℚ
deriving DecidableEq, Repr

/-- Persistent record `ProcessedContent` from storageManager.ts; the pipeline always stores a
`GeminiAnalysis` in the untyped `analysis` slot. -/
structure ProcessedContent where
  nodeId : String
  url : String
  title : String
  content : String
  timestamp : Int
  metadata : Metadata
  analysis : GeminiAnalysis
deriving DecidableEq, Repr

/-- Settings record `ExtensionSettings` from storageManager.ts. -/
structure ExtensionSettings where
  geminiApiKey : String
  autoCapture : Bool
  minContentLength : Nat
  skipDomains : List String
  captureFrequency : Nat
  maxStorageSize : Nat
deriving DecidableEq, Repr

/-- Defaults `StorageManager.DEFAULT_SETTINGS`. -/
def DEFAULT_SETTINGS : ExtensionSettings where
  geminiApiKey := ""
  autoCapture := true
  minContentLength := 500
  skipDomains := ["facebook.com", "twitter.com", "instagram.com", "youtube.com"]
  captureFrequency := 2000
  maxStorageSize := 100 * 1024 * 1024

/-- The three persisted `chrome.storage.local` collections the pipeline
mutates (keys `traily_content`, `traily_graph_nodes`, `traily_graph_edges`). -/
structure Storage where
  content : List ProcessedContent
  nodes : List GraphNode
  edges : List GraphEdge
deriving DecidableEq, Repr

/-! ## StorageManager operations (storageManager.ts) -/

/-- Models `StorageManager.findSimilarContent`: first archive entry with the URL. -/
def findSimilarContent (content : List ProcessedContent) (url : String) :
    Option ProcessedContent :=
  content.find? (fun item => item.url == url)

/-- Models `StorageManager.storeProcessedContent`: drop entries with the same URL,
append the new record, sort by timestamp descending, keep the newest 1000. -/
def storeProcessedContent (existing : List ProcessedContent)
    (c : ProcessedContent) : List ProcessedContent :=
  let filteredContent := existing.filter (fun item => item.url != c.url)
  let pushed := filteredContent ++ [c]
  (pushed.mergeSort (fun a b => b.timestamp ≤ a.timestamp)).take 1000

/-- Models `StorageManager.addGraphNode`: remove any node with the same id, append. -/
def addGraphNode (nodes : List GraphNode) (node : GraphNode) : List GraphNode :=
  nodes.filter (fun n => n.id != node.id) ++ [node]

/-- Models `StorageManager.getGraphNode`: first node with the id, else `none`. -/
def getGraphNode (nodes : List GraphNode) (nodeId : String) : Option GraphNode :=
  nodes.find? (fun n => n.id == nodeId)

/-- Models `StorageManager.updateGraphNode`: replace the first node whose id matches
(`findIndex` + in-place assignment); if no index matches, write nothing. -/
def updateGraphNode (nodes : List GraphNode) (node : GraphNode) : List GraphNode :=
  match nodes with
  | [] => []
  | n :: rest =>
      if n.id == node.id then node :: rest
      else n :: updateGraphNode rest node

/-- Models `StorageManager.addGraphEdge`: append only if no edge has the same id. -/
def addGraphEdge (edges : List GraphEdge) (edge : GraphEdge) : List GraphEdge :=
  match edges.find? (fun e => e.id == edge.id) with
  | some _ => edges
  | none => edges ++ [edge]

/-- JS truthiness of the optional numeric `GraphNode.data.timestamp`
(`undefined` and `0` are falsy). -/
def timestampTruthy : Option Int → Bool
  | none => false
  | some t => t != 0

/-- Node-retention predicate of `StorageManager.clearOldData`:
`!node.data.timestamp || node.data.timestamp > cutoffTime`. -/
def keepNode (cutoffTime : Int) (n : GraphNode) : Bool :=
  !timestampTruthy n.data.timestamp || cutoffTime < (n.data.timestamp.getD 0)

/-- Models `StorageManager.clearOldData`: filter the content archive and the node
collection by age against `now - maxAge`; the edge collection is not read,
filtered, or written by this method. -/
def clearOldData (s : Storage) (now : Int) (maxAge : Int) : Storage :=
  let cutoffTime := now - maxAge
  { content := s.content.filter (fun item => cutoffTime < item.timestamp)
    nodes := s.nodes.filter (keepNode cutoffTime)
    edges := s.edges }

/-! ## BackgroundService (background.ts) -/

/-- JS `String.prototype.trim`: strip leading and trailing whitespace. -/
def jsTrim (s : String) : String :=
  String.mk (((s.toList.dropWhile Char.isWhitespace).reverse.dropWhile
    Char.isWhitespace).reverse)

/-- JS `String.prototype.toLowerCase` on the ASCII range. -/
def jsToLower (s : String) : String := String.mk (s.toList.map Char.toLower)

/-- The base64 alphabet used by `btoa`. -/
def base64Alphabet : List Char :=
  "ABCDEFGHIJKLMNOPQRSTUVWXYZabcdefghijklmnopqrstuvwxyz0123456789+/".toList

/-- The base64 digit for a 6-bit value. -/
def b64char (n : Nat) : Char := base64Alphabet.getD n 'A'

/-- Base64-encode a byte list, 3 bytes to 4 digits, padding with `=`. -/
def base64Encode : List Nat → List Char
  | [] => []
  | [a] => [b64char (a / 4), b64char (a % 4 * 16), '=', '=']
  | [a, b] => [b64char (a / 4), b64char (a % 4 * 16 + b / 16),
               b64char (b % 16 * 4), '=']
  | a :: b :: c :: rest =>
      b64char (a / 4) :: b64char (a % 4 * 16 + b / 16) ::
      b64char (b % 16 * 4 + c / 64) :: b64char (c % 64) :: base64Encode rest

/-- Models `btoa(s)`: base64 of the string's code points taken as bytes (callers only
pass ASCII; `btoa` itself throws above U+00FF, modelled by reducing mod 256). -/
def btoa (s : String) : String :=
  String.mk (base64Encode (s.toList.map (fun ch => ch.toNat % 256)))

/-- Models `BackgroundService.generateNodeId`:
`btoa(url).replace(/[+/=]/g, '').substring(0, 16)`. -/
def generateNodeId (url : String) : String :=
  String.mk (((btoa url).toList.filter
    (fun ch => ch != '+' && ch != '/' && ch != '=')).take 16)

/-- JS `String.prototype.includes`: substring occurrence test. -/
def jsIncludes (s sub : String) : Bool := go s.toList sub.toList
where
  go : List Char → List Char → Bool
    | s, sub => sub.isPrefixOf s ||
        match s with
        | [] => false
        | _ :: rest => go rest sub

/-- Models `BackgroundService.detectContentType`: keyword scoring over lowercased
title and content, first matching category wins, default `article`. -/
def detectContentType (title content : String) : String :=
  let titleLower := jsToLower title
  let contentLower := jsToLower content
  if jsIncludes titleLower "research" || jsIncludes titleLower "paper" ||
     jsIncludes contentLower "abstract" || jsIncludes contentLower "methodology" then
    "research"
  else if jsIncludes titleLower "documentation" || jsIncludes titleLower "docs" ||
     jsIncludes contentLower "api" || jsIncludes contentLower "tutorial" then
    "documentation"
  else if jsIncludes titleLower "news" || jsIncludes contentLower "breaking" ||
     jsIncludes contentLower "reported" then
    "news"
  else if jsIncludes titleLower "blog" || jsIncludes contentLower "published by" ||
     jsIncludes contentLower "opinion" then
    "blog"
  else
    "article"

/-- Number of maximal runs of non-whitespace characters. -/
def countWordRuns (l : List Char) : Nat :=
  (l.foldl
    (fun st ch =>
      if ch.isWhitespace then (st.1, false)
      else (if st.2 then st.1 else st.1 + 1, true))
    (0, false)).1

/-- Word count as computed in `extractPageContent`:
`content.trim().split(/\s+/).length` (splitting the empty string yields one
empty piece, hence count 1). -/
def jsWordCount (content : String) : Nat :=
  let t := jsTrim content
  if t.isEmpty then 1 else countWordRuns t.toList

/-- The tail of `BackgroundService.extractPageContent` after DOM selection and
cleanup: `content` is the cleaned `textContent` of the chosen container and
`domain` the hostname of `url`; records under 100 words are dropped here. -/
def extractPageContent (url title content : String) (now : Int)
    (domain : String) : Option CapturedContent :=
  let wordCount := jsWordCount content
  if wordCount < 100 then
    none
  else
    some { url := url, title := title, content := jsTrim content, timestamp := now
           metadata := { domain := domain
                         contentType := detectContentType title content
                         wordCount := (wordCount : ℚ) } }

/-- Models `BackgroundService.calculateImportance`: capped word-count score, content
type bonus, capped concept-count bonus, all clamped at 10. -/
def calculateImportance (content : CapturedContent) (analysis : GeminiAnalysis) : ℚ :=
  let score : ℚ := 0
  let score := score + min (content.metadata.wordCount / 1000) 5
  let score := score + (if content.metadata.contentType == "research" then 3 else 0)
  let score := score + (if content.metadata.contentType == "documentation" then 2 else 0)
  let score := score + min ((analysis.concepts.length : ℚ) * (1 / 2)) 3
  min score 10

/-- Models `BackgroundService.processConceptNode`: upsert the concept node derived
from the (unnormalized) label, then add the page-to-concept edge. -/
def processConceptNode (s : Storage) (concept : String) (pageNodeId : String)
    (pos : Position) : Storage :=
  let conceptId := generateNodeId ("concept:" ++ concept)
  let s1 :=
    match getGraphNode s.nodes conceptId with
    | none =>
        let conceptNode : GraphNode :=
          { id := conceptId, type := NodeType.concept
            data := { label := concept, importance := 1
                      connectedPages := some [pageNodeId] }
            position := pos }
        { s with nodes := addGraphNode s.nodes conceptNode }
    | some existingNode =>
        let updatedNode : GraphNode :=
          { existingNode with
              data := { existingNode.data with
                importance := existingNode.data.importance + 1 / 2
                connectedPages :=
                  some ((existingNode.data.connectedPages.getD []) ++ [pageNodeId]) } }
        { s with nodes := updateGraphNode s.nodes updatedNode }
  let edge : GraphEdge :=
    { id := pageNodeId ++ "-" ++ conceptId
      source := pageNodeId, target := conceptId, type := EdgeType.relates_to
      data := { strength := 1, relationship := "contains_concept" } }
  { s1 with edges := addGraphEdge s1.edges edge }

/-- Models `BackgroundService.updateKnowledgeGraph`: add the page node, then process
each extracted concept in order; `pagePos` and `conceptPos i` stand for the
`Math.random()` placements. -/
def updateKnowledgeGraph (s : Storage) (content : CapturedContent)
    (analysis : GeminiAnalysis) (pagePos : Position)
    (conceptPos : Nat → Position) : Storage :=
  let pageNode : GraphNode :=
    { id := generateNodeId content.url
      type := NodeType.page
      data := { label := content.title, url := some content.url
                summary := some analysis.summary
                timestamp := some content.timestamp
                importance := calculateImportance content analysis
                domain := some content.metadata.domain
                contentType := some content.metadata.contentType }
      position := pagePos }
  let s1 := { s with nodes := addGraphNode s.nodes pageNode }
  (analysis.concepts.enum).foldl
    (fun st p => processConceptNode st p.2 pageNode.id (conceptPos p.1)) s1

/-- Models `BackgroundService.processContent`: dedup by URL, analyze, persist, update
graph. `analyze` abstracts `GeminiProcessor.analyzeContent`; the returned flag
records whether the analysis client was invoked. -/
def processContent (analyze : String → String → Option GeminiAnalysis)
    (pagePos : Position) (conceptPos : Nat → Position)
    (s : Storage) (content : CapturedContent) : Storage × Bool :=
  match findSimilarContent s.content content.url with
  | some _ => (s, false)
  | none =>
      match analyze content.content content.url with
      | none => (s, true)
      | some analysis =>
          let stored : ProcessedContent :=
            { nodeId := generateNodeId content.url
              url := content.url, title := content.title
              content := content.content, timestamp := content.timestamp
              metadata := content.metadata, analysis := analysis }
          let s1 := { s with content := storeProcessedContent s.content stored }
          (updateKnowledgeGraph s1 content analysis pagePos conceptPos, true)

/-- Record assembled in step 3 of `processContent` (`{...content, analysis,
nodeId}`), named for reuse in the theorems. -/
def storedRecord (c : CapturedContent) (a : GeminiAnalysis) : ProcessedContent :=
  { nodeId := generateNodeId c.url, url := c.url, title := c.title
    content := c.content, timestamp := c.timestamp
    metadata := c.metadata, analysis := a }

/-! ## GeminiProcessor (geminiProcessor.ts) -/

/-- Value tree produced by ECMA `JSON.parse`. -/
inductive Json
  | null
  | bool (b : Bool)
  | num (q : ℚ)
  | str (s : String)
  | arr (elems : List Json)
  | obj (fields : List (String × Json))

/-- Property access `parsed.key` on a parsed JSON value (an absent key or a
non-object receiver yields `undefined`). -/
def getField (j : Json) (key : String) : Option Json :=
  match j with
  | Json.obj fields => (fields.find? (fun p => p.1 == key)).map (fun p => p.2)
  | _ => none

/-- Evaluation of `parsed.key || dflt` for the string-typed fields of the
declared `GeminiAnalysis` interface (the empty string is falsy; values of
other JSON types fall back to the default in this typed model). -/
def strFieldOr (parsed : Json) (key dflt : String) : String :=
  match getField parsed key with
  | some (Json.str s) => if s == "" then dflt else s
  | _ => dflt

/-- String elements of a JSON array (the prompt's schema makes the `concepts`
and `relatedTopics` items strings; other shapes are outside the typed model). -/
def strElems (xs : List Json) : List String :=
  xs.filterMap (fun j => match j with | Json.str s => some s | _ => none)

/-- Dropping of one leading newline, the `\n?` of the code-fence regexes. -/
def dropOptNewline : List Char → List Char
  | '\n' :: rs => rs
  | rs => rs

/-- Global left-to-right removal of each occurrence of a (nonempty) literal
token followed by an optional newline: `.replace(/tok\n?/g, '')`. -/
def removeTokenOptNL (t0 : Char) (ts : List Char) (l : List Char) : List Char :=
  match l with
  | [] => []
  | c :: cs =>
      if (t0 :: ts).isPrefixOf (c :: cs) then
        removeTokenOptNL t0 ts (dropOptNewline (cs.drop ts.length))
      else c :: removeTokenOptNL t0 ts cs
termination_by l.length
decreasing_by
  · have h2 : ∀ l2 : List Char, (dropOptNewline l2).length ≤ l2.length := by
      intro l2
      unfold dropOptNewline
      split <;> simp
    refine lt_of_le_of_lt (h2 _) ?_
    simp only [List.length_drop, List.length_cons]
    omega
  · simp

/-- Cleanup in the `parse*Response` methods:
`response.replace(/```json\n?/g, '').replace(/```\n?/g, '').trim()`. -/
def stripFences (response : String) : String :=
  let s1 := removeTokenOptNL '`' "``json".toList response.toList
  let s2 := removeTokenOptNL '`' "``".toList s1
  jsTrim (String.mk s2)

/-- Models `GeminiProcessor.parseGeminiResponse`: strip markdown fences, parse
as JSON (a parse error, or the `TypeError` raised by property access on a
parsed `null`, is caught and yields `null`), then assemble the analysis with
per-field defaults. `jsonParse` abstracts ECMA `JSON.parse`. -/
def parseGeminiResponse (jsonParse : String → Except String Json)
    (response : String) : Option GeminiAnalysis :=
  match jsonParse (stripFences response) with
  | Except.error _ => none
  | Except.ok Json.null => none
  | Except.ok parsed =>
      some
        { concepts :=
            match getField parsed "concepts" with
            | some (Json.arr xs) => strElems (xs.take 10)
            | _ => []
          summary := strFieldOr parsed "summary" ""
          contentType := strFieldOr parsed "contentType" "article"
          author :=
            match getField parsed "author" with
            | some (Json.str s) => if s == "" then none else some s
            | _ => none
          mainTopic := strFieldOr parsed "mainTopic" ""
          relatedTopics :=
            match getField parsed "relatedTopics" with
            | some (Json.arr xs) => strElems (xs.take 5)
            | _ => []
          confidence :=
            match getField parsed "confidence" with
            | some (Json.num q) => q
            | _ => 1 / 2 }

/-- Result of the `fetch` of the Gemini endpoint and the subsequent response
checks inside the queued task, as observed by the task body. -/
inductive FetchOutcome
  | networkError (message : String)
  | httpError (status : Nat) (statusText : String)
  | badShape
  | responseText (text : String)

/-- Test for the one settlement kind in which the fetch itself rejects, so
the `lastApiCall` assignment is never reached. -/
def isNetworkError : FetchOutcome → Bool
  | FetchOutcome.networkError _ => true
  | _ => false

/-- Settlement of one queued task body of `GeminiProcessor.callGeminiAPI`: a
rejected fetch, a non-2xx status, or a response without the expected
`candidates[0].content.parts[0].text` path all reject the caller's promise;
otherwise it resolves with the generated text. -/
def apiCallResult : FetchOutcome → Except String String
  | FetchOutcome.networkError m => Except.error m
  | FetchOutcome.httpError status statusText =>
      Except.error ("Gemini API error: " ++ toString status ++ " " ++ statusText)
  | FetchOutcome.badShape => Except.error "Invalid response format from Gemini API"
  | FetchOutcome.responseText t => Except.ok t

/-- Prompt built by `GeminiProcessor.analyzeContent` (JS `substring(0, 4000)`
modelled by `String.take`). -/
def analysisPrompt (content url : String) : String :=
  "Analyze this web content and extract information in JSON format:\n\n" ++
  "Content URL: " ++ url ++ "\n" ++
  "Content: " ++ content.take 4000 ++ " " ++
  (if 4000 < content.length then "...[truncated]" else "") ++
  "\n\nPlease provide a JSON response with the following structure:\n" ++
  "\x7b\n  \"concepts\": [\"concept1\", \"concept2\", ...] (max 10 key concepts/topics),\n" ++
  "  \"summary\": \"2-3 sentence summary\",\n" ++
  "  \"contentType\": \"research|documentation|news|blog|article|tutorial\",\n" ++
  "  \"author\": \"author name if mentioned, null otherwise\",\n" ++
  "  \"mainTopic\": \"primary topic/theme\",\n" ++
  "  \"relatedTopics\": [\"topic1\", \"topic2\", ...] (max 5 related topics),\n" ++
  "  \"confidence\": 0.8 (confidence score 0-1)\n\x7d\n\n" ++
  "Focus on extracting meaningful concepts that could be useful for building knowledge connections."

/-- Models `GeminiProcessor.analyzeContent` with exceptions made explicit: an
`Except.error` result would be an exception escaping to the caller. A missing
API key returns `null` up front; the `try/catch` turns every rejection of the
queued call into `null`; a successful call is parsed by
`parseGeminiResponse`. `fetchOracle` gives the fetch outcome for the prompt. -/
def analyzeContentE (jsonParse : String → Except String Json)
    (fetchOracle : String → FetchOutcome) (apiKey : String)
    (content url : String) : Except String (Option GeminiAnalysis) :=
  if apiKey == "" then Except.ok none
  else
    match apiCallResult (fetchOracle (analysisPrompt content url)) with
    | Except.error _ => Except.ok none
    | Except.ok response => Except.ok (parseGeminiResponse jsonParse response)

/-- Value `GeminiProcessor.analyzeContent` hands its caller. -/
def analyzeContent (jsonParse : String → Except String Json)
    (fetchOracle : String → FetchOutcome) (apiKey : String)
    (content url : String) : Option GeminiAnalysis :=
  match analyzeContentE jsonParse fetchOracle apiKey content url with
  | Except.ok r => r
  | Except.error _ => none

/-! ## Rate-limit queue (geminiProcessor.ts `callGeminiAPI`/`processQueue`)

The single-worker queue is embedded with an explicit clock: `ApiState.now` is
the current time and `ApiState.lastApiCall` mirrors the `lastApiCall` field
(updated when the fetch settles without a network rejection, matching the
assignment placed before the `response.ok` check). Each queued task is
described by how long its fetch takes and how it settles; `setTimeout` waits
advance the clock. -/

/-- Worker-visible state of the rate limiter. -/
structure ApiState where
  now : Int
  lastApiCall : Int
deriving DecidableEq, Repr

/-- Description of one queued task: fetch latency and settlement. -/
structure TaskSpec where
  duration : Int
  outcome : FetchOutcome

/-- Observable execution of one queued task: when its fetch started, when it
settled, and the settlement value. -/
structure CallTrace where
  start : Int
  finish : Int
  result : Except String String

/-- Execution of one queued task body: wait out the remainder of the minimum
interval since `lastApiCall`, run the fetch, record `lastApiCall` unless the
fetch itself rejected (the assignment precedes the `response.ok` check, so an
HTTP error still updates it). -/
def runApiTask (delay : Int) (st : ApiState) (t : TaskSpec) :
    CallTrace × ApiState :=
  let timeSinceLastCall := st.now - st.lastApiCall
  let startTime :=
    if timeSinceLastCall < delay then st.now + (delay - timeSinceLastCall)
    else st.now
  let finishTime := startTime + t.duration
  let newLast :=
    match t.outcome with
    | FetchOutcome.networkError _ => st.lastApiCall
    | _ => finishTime
  ({ start := startTime, finish := finishTime, result := apiCallResult t.outcome },
   { now := finishTime, lastApiCall := newLast })

/-- Models `GeminiProcessor.processQueue`: the single worker shifts tasks off
the FIFO queue one at a time, awaiting each; the `try/catch` around
`await task()` (and the `reject` inside the task body) means a failing task
never stops the loop. Returns the trace of all executed tasks in queue
order. -/
def processQueue (delay : Int) (st : ApiState) : List TaskSpec → List CallTrace
  | [] => []
  | t :: rest =>
      let r := runApiTask delay st t
      r.1 :: processQueue delay r.2 rest

/-! ## ConfigManager (configManager.ts) -/

/-- The static configuration returned by `ConfigManager.getConfig` (the
development flag and endpoint string are irrelevant here). -/
structure GeminiConfig where
  rateLimitDelay : Int
  maxRetries : Nat
  requestTimeout : Nat
deriving DecidableEq, Repr

/-- Static configuration `ConfigManager.getConfig()`. -/
def getConfig : GeminiConfig where
  rateLimitDelay := 1000
  maxRetries := 3
  requestTimeout := 30000

/-! ## Concrete sample data, used to instantiate the theorems below -/

/-- Empty persisted state (a fresh install). -/
def emptyStorage : Storage := { content := [], nodes := [], edges := [] }

/-- Fixed placement standing in for one `Math.random()` draw. -/
def pos0 : Position := { x := 0, y := 0 }

/-- Default trace used with `List.getD` over queue traces. -/
def dfltTrace : CallTrace :=
  { start := 0, finish := 0, result := Except.ok "" }

/-- Analysis with two concepts, as the external service would return it. -/
def sampleAnalysis : GeminiAnalysis :=
  { concepts := ["AI", "Ethics"], summary := "sum", contentType := "article"
    author := none, mainTopic := "AI", relatedTopics := [], confidence := 4 / 5 }

/-- Capture of a 500-word article page. -/
def sampleCaptured : CapturedContent :=
  { url := "https://example.com/a", title := "Page A", content := "body text"
    timestamp := 10
    metadata := { domain := "example.com", contentType := "article"
                  wordCount := 500 } }

/-- Second capture of the same URL with different content. -/
def sampleCaptured2 : CapturedContent :=
  { url := "https://example.com/a", title := "Page A updated"
    content := "changed body text", timestamp := 20
    metadata := { domain := "example.com", contentType := "article"
                  wordCount := 600 } }

/-- Processed record whose word count (50) is below every minimum-length
figure in play. -/
def shortContent : ProcessedContent :=
  { nodeId := "id1", url := "https://example.com/short", title := "Short"
    content := "few words", timestamp := 5
    metadata := { domain := "example.com", contentType := "article"
                  wordCount := 50 }
    analysis := sampleAnalysis }

/-- Page node captured at time 1, old relative to the eviction cutoff used in
the eviction theorems. -/
def oldPageNode : GraphNode :=
  { id := "p1", type := NodeType.page
    data := { label := "Old page", url := some "https://example.com/old"
              timestamp := some 1, importance := 1 }
    position := pos0 }

/-- Edge whose source is `oldPageNode`. -/
def oldPageEdge : GraphEdge :=
  { id := "p1-c1", source := "p1", target := "c1", type := EdgeType.relates_to
    data := { strength := 1, relationship := "contains_concept" } }

/-- State holding the old page node and an edge incident to it. -/
def evictionState : Storage :=
  { content := [], nodes := [oldPageNode], edges := [oldPageEdge] }

/-- Concept node used to instantiate node-collection theorems. -/
def sampleNode : GraphNode :=
  { id := "n1", type := NodeType.concept
    data := { label := "AI", importance := 1, connectedPages := some ["p1"] }
    position := pos0 }

/-- Second node with a different identifier. -/
def sampleNode2 : GraphNode :=
  { id := "n2", type := NodeType.concept
    data := { label := "Ethics", importance := 1, connectedPages := some ["p1"] }
    position := pos0 }

/-- Edge used to instantiate edge-collection theorems. -/
def sampleEdge : GraphEdge :=
  { id := "pa-ca", source := "pa", target := "ca", type := EdgeType.relates_to
    data := { strength := 1, relationship := "contains_concept" } }

/-- Duplicate of `sampleEdge`'s endpoints with different payload. -/
def sampleEdgeDup : GraphEdge :=
  { id := "pa-ca", source := "pa", target := "ca", type := EdgeType.relates_to
    data := { strength := 7, relationship := "other" } }

/-! ## Theorems -/

/-- C10: calling `updateGraphNode` with a node whose identifier is absent from
the stored node collection leaves the collection completely unchanged (no
insertion), whereas `addGraphNode` inserts-or-replaces, so the added node is
always present afterwards. -/
theorem updateGraphNode_absent_noop (nodes : List GraphNode) (node : GraphNode)
    (h : ∀ n ∈ nodes, n.id ≠ node.id) :
    updateGraphNode nodes node = nodes ∧ node ∈ addGraphNode nodes node := by
  constructor
  · induction nodes with
    | nil => rfl
    | cons n rest ih =>
        have hn : (n.id == node.id) = false :=
          beq_eq_false_iff_ne.mpr (h n (List.mem_cons_self n rest))
        simp only [updateGraphNode, hn, Bool.false_eq_true, if_false,
          List.cons.injEq, true_and]
        exact ih (fun m hm => h m (List.mem_cons_of_mem n hm))
  · simp [addGraphNode]

/-- Closed witness for `updateGraphNode_absent_noop` at a concrete node and
collection. -/
theorem updateGraphNode_absent_noop_witness :
    updateGraphNode [sampleNode] sampleNode2 = [sampleNode] ∧
    sampleNode2 ∈ addGraphNode [sampleNode] sampleNode2 :=
  updateGraphNode_absent_noop [sampleNode] sampleNode2 (by decide)

/-- C3: adding an edge twice with an identical source/target pair (and hence
the identical derived identifier `source-target`) stores exactly one edge; the
duplicate add is a no-op that leaves the collection, and so the stored edge's
strength and relationship label, unchanged; and `addGraphEdge` preserves the
invariant of at most one edge per identifier. -/
theorem addGraphEdge_duplicate_noop (edges : List GraphEdge) (e1 e2 : GraphEdge)
    (hd1 : e1.id = e1.source ++ "-" ++ e1.target)
    (hd2 : e2.id = e2.source ++ "-" ++ e2.target)
    (hs : e2.source = e1.source) (ht : e2.target = e1.target)
    (hfresh : ∀ e ∈ edges, e.id ≠ e1.id) :
    addGraphEdge (addGraphEdge edges e1) e2 = addGraphEdge edges e1 ∧
    (addGraphEdge edges e1).countP (fun e => e.id == e1.id) = 1 ∧
    e1 ∈ addGraphEdge edges e1 ∧
    (∀ (es : List GraphEdge) (e : GraphEdge) (i : String),
        es.countP (fun x => x.id == i) ≤ 1 →
        (addGraphEdge es e).countP (fun x => x.id == i) ≤ 1) := by
  have hid : e2.id = e1.id := by rw [hd1, hd2, hs, ht]
  have hfind : edges.find? (fun e => e.id == e1.id) = none :=
    List.find?_eq_none.mpr (fun x hx => by simpa using hfresh x hx)
  have hadd : addGraphEdge edges e1 = edges ++ [e1] := by
    unfold addGraphEdge
    rw [hfind]
  refine ⟨?_, ?_, ?_, ?_⟩
  · rw [hadd]
    unfold addGraphEdge
    rw [hid]
    rcases hx : (edges ++ [e1]).find? (fun e => e.id == e1.id) with _ | x
    · exfalso
      have := List.find?_eq_none.mp hx e1 (by simp)
      simp at this
    · simp only [hx]
  · rw [hadd, List.countP_append]
    have h0 : edges.countP (fun x => x.id == e1.id) = 0 :=
      List.countP_eq_zero.mpr (fun x hx => by
        simpa using beq_eq_false_iff_ne.mpr (hfresh x hx))
    simp [h0]
  · rw [hadd]; simp
  · intro es e i hle
    unfold addGraphEdge
    rcases hf : es.find? (fun x => x.id == e.id) with _ | x
    · simp only [hf]
      rw [List.countP_append]
      by_cases hei : e.id = i
      · have h0 : es.countP (fun x => x.id == i) = 0 :=
          List.countP_eq_zero.mpr (fun x hx => by
            have := List.find?_eq_none.mp hf x hx
            simpa [hei] using this)
        simp [h0, hei]
      · have h1 : List.countP (fun x => x.id == i) [e] = 0 := by
          simp [beq_eq_false_iff_ne.mpr hei]
        rw [h1]
        simpa using hle
    · simp only [hf]
      exact hle

/-- Closed witness for `addGraphEdge_duplicate_noop` at a concrete edge pair
differing in strength and relationship label. -/
theorem addGraphEdge_duplicate_noop_witness :
    addGraphEdge (addGraphEdge [] sampleEdge) sampleEdgeDup =
      addGraphEdge [] sampleEdge ∧
    (addGraphEdge [] sampleEdge).countP (fun e => e.id == sampleEdge.id) = 1 ∧
    sampleEdge ∈ addGraphEdge [] sampleEdge ∧
    (∀ (es : List GraphEdge) (e : GraphEdge) (i : String),
        es.countP (fun x => x.id == i) ≤ 1 →
        (addGraphEdge es e).countP (fun x => x.id == i) ≤ 1) :=
  addGraphEdge_duplicate_noop [] sampleEdge sampleEdgeDup (by decide) (by decide)
    (by decide) (by decide) (by simp)

end Traily

namespace Traily

/-- C4: for every capture with non-negative word count, any content type, and
any analysis with any number of concepts, the computed page importance lies in
the closed interval [0, 10]. -/
theorem calculateImportance_in_unit_range (c : CapturedContent)
    (a : GeminiAnalysis) (h : 0 ≤ c.metadata.wordCount) :
    0 ≤ calculateImportance c a ∧ calculateImportance c a ≤ 10 := by
  have h1 : (0 : ℚ) ≤ min (c.metadata.wordCount / 1000) 5 :=
    le_min (by positivity) (by norm_num)
  have h2 : (0 : ℚ) ≤
      (if c.metadata.contentType == "research" then (3 : ℚ) else 0) := by
    split <;> norm_num
  have h3 : (0 : ℚ) ≤
      (if c.metadata.contentType == "documentation" then (2 : ℚ) else 0) := by
    split <;> norm_num
  have h4 : (0 : ℚ) ≤ min ((a.concepts.length : ℚ) * (1 / 2)) 3 :=
    le_min (by positivity) (by norm_num)
  unfold calculateImportance
  refine ⟨le_min (by linarith) (by norm_num), min_le_right _ _⟩

/-- Closed witness for `calculateImportance_in_unit_range` at the sample
capture and analysis. -/
theorem calculateImportance_in_unit_range_witness :
    0 ≤ sampleCaptured.metadata.wordCount ∧
    (0 ≤ calculateImportance sampleCaptured sampleAnalysis ∧
     calculateImportance sampleCaptured sampleAnalysis ≤ 10) :=
  ⟨by norm_num [sampleCaptured],
   calculateImportance_in_unit_range sampleCaptured sampleAnalysis
     (by norm_num [sampleCaptured])⟩

end Traily

namespace Traily

/-- C5 (intended invariant, violated by the code): an eviction pass at time
100 with max age 10 removes the page node older than the cutoff from the node
collection but leaves the edge collection untouched, so the stored edge
`oldPageEdge` still references the removed page node `p1` — `clearOldData`
never filters `traily_graph_edges`. -/
theorem clearOldData_keeps_edge_of_removed_node :
    (clearOldData evictionState 100 10).nodes = [] ∧
    (clearOldData evictionState 100 10).edges = [oldPageEdge] ∧
    oldPageEdge.source = oldPageNode.id ∧
    oldPageNode ∈ evictionState.nodes ∧
    oldPageNode.data.timestamp = some 1 ∧ (1 : Int) < 100 - 10 := by
  refine ⟨rfl, rfl, rfl, by simp [evictionState], rfl, by norm_num⟩

end Traily

namespace Traily

/-- C9 (counterexample): a record whose word count (50) is below every
minimum-length figure in play is nevertheless stored by
`storeProcessedContent` — persistence performs no word-count check — and the
configurable minimum-length default is 500 words, not 100. -/
theorem short_content_is_stored :
    storeProcessedContent [] shortContent = [shortContent] ∧
    shortContent.metadata.wordCount = 50 ∧
    DEFAULT_SETTINGS.minContentLength = 500 := by
  refine ⟨by simp [storeProcessedContent], rfl, rfl⟩

/-- C9 (amended): captures under 100 words are discarded at the point of
extraction by a hardcoded threshold in `extractPageContent`;
`storeProcessedContent` itself stores records of any word count; and the
configurable `minContentLength` setting defaults to 500 words (and is not
consulted by either operation). -/
theorem min_length_gate_at_extraction (url title content : String) (now : Int)
    (domain : String) (c : ProcessedContent)
    (hshort : jsWordCount content < 100) :
    extractPageContent url title content now domain = none ∧
    storeProcessedContent [] c = [c] ∧
    DEFAULT_SETTINGS.minContentLength = 500 := by
  refine ⟨?_, by simp [storeProcessedContent], rfl⟩
  unfold extractPageContent
  simp [hshort]

/-- Closed witness for `min_length_gate_at_extraction` on a 2-word capture. -/
theorem min_length_gate_at_extraction_witness :
    extractPageContent "https://example.com/t" "Tiny" "tiny text" 0
      "example.com" = none ∧
    storeProcessedContent [] shortContent = [shortContent] ∧
    DEFAULT_SETTINGS.minContentLength = 500 :=
  min_length_gate_at_extraction "https://example.com/t" "Tiny" "tiny text" 0
    "example.com" shortContent (by decide)

end Traily

namespace Traily

/-- C2 (counterexample): the concept-node identifier is NOT derived from a
case/whitespace-normalized label — `generateNodeId` base64-encodes
`concept:` + the label verbatim — so ingesting the same concept in two case
variants from two pages yields two distinct concept nodes, each holding only
its own page in `connectedPages`, not one converged node. -/
theorem concept_id_not_normalized :
    generateNodeId "concept:Neural Networks" ≠
      generateNodeId "concept:neural networks" ∧
    (processConceptNode (processConceptNode emptyStorage "Neural Networks" "pg1" pos0)
        "neural networks" "pg2" pos0).nodes.map (fun n => n.type) =
      [NodeType.concept, NodeType.concept] ∧
    (processConceptNode (processConceptNode emptyStorage "Neural Networks" "pg1" pos0)
        "neural networks" "pg2" pos0).nodes.map (fun n => n.data.connectedPages) =
      [some ["pg1"], some ["pg2"]] := by decide

/-- C2 (amended): the concept-node identifier is derived deterministically
from the exact label (`concept:` + label, base64, no case or whitespace
normalization), so processing the identical concept label from two pages with
distinct page identifiers produces exactly one concept GraphNode whose
`connectedPages` back-reference list contains both page identifiers, and
exactly two `relates_to` edges. -/
theorem concept_convergence_exact_label (c p1 p2 : String)
    (pos1 pos2 : Position) (hne : p1 ≠ p2) :
    (processConceptNode (processConceptNode emptyStorage c p1 pos1) c p2 pos2).nodes =
      [{ id := generateNodeId ("concept:" ++ c), type := NodeType.concept
         data := { label := c, importance := 1 + 1 / 2,
                   connectedPages := some [p1, p2] }
         position := pos1 }] ∧
    (processConceptNode (processConceptNode emptyStorage c p1 pos1) c p2 pos2).edges =
      [{ id := p1 ++ "-" ++ generateNodeId ("concept:" ++ c), source := p1
         target := generateNodeId ("concept:" ++ c), type := EdgeType.relates_to
         data := { strength := 1, relationship := "contains_concept" } },
       { id := p2 ++ "-" ++ generateNodeId ("concept:" ++ c), source := p2
         target := generateNodeId ("concept:" ++ c), type := EdgeType.relates_to
         data := { strength := 1, relationship := "contains_concept" } }] := by
  have hids : (p1 ++ "-" ++ generateNodeId ("concept:" ++ c)) ≠
      (p2 ++ "-" ++ generateNodeId ("concept:" ++ c)) := by
    intro h
    apply hne
    have hd := congrArg String.data h
    simp only [String.data_append] at hd
    have h2 := List.append_cancel_right hd
    have h3 := List.append_cancel_right h2
    cases p1
    cases p2
    exact congrArg String.mk h3
  constructor
  · simp [processConceptNode, getGraphNode, addGraphNode, addGraphEdge,
      updateGraphNode, emptyStorage]
  · simp [processConceptNode, getGraphNode, addGraphNode, addGraphEdge,
      updateGraphNode, emptyStorage, hids]

/-- Closed witness for `concept_convergence_exact_label`: the concept
"Neural Networks" mentioned by two distinct pages. -/
theorem concept_convergence_exact_label_witness :
    (processConceptNode (processConceptNode emptyStorage "Neural Networks" "pg1" pos0)
        "Neural Networks" "pg2" pos0).nodes =
      [{ id := generateNodeId ("concept:" ++ "Neural Networks")
         type := NodeType.concept
         data := { label := "Neural Networks", importance := 1 + 1 / 2,
                   connectedPages := some ["pg1", "pg2"] }
         position := pos0 }] ∧
    (processConceptNode (processConceptNode emptyStorage "Neural Networks" "pg1" pos0)
        "Neural Networks" "pg2" pos0).edges =
      [{ id := "pg1" ++ "-" ++ generateNodeId ("concept:" ++ "Neural Networks")
         source := "pg1"
         target := generateNodeId ("concept:" ++ "Neural Networks")
         type := EdgeType.relates_to
         data := { strength := 1, relationship := "contains_concept" } },
       { id := "pg2" ++ "-" ++ generateNodeId ("concept:" ++ "Neural Networks")
         source := "pg2"
         target := generateNodeId ("concept:" ++ "Neural Networks")
         type := EdgeType.relates_to
         data := { strength := 1, relationship := "contains_concept" } }] :=
  concept_convergence_exact_label "Neural Networks" "pg1" "pg2" pos0 pos0
    (by decide)

end Traily

namespace Traily

/-- C8: when the analysis client returns `null` for a capture, the ingestion
aborts with all three collections — processed-content archive, node
collection, and edge collection — left exactly as they were (so concurrent
ingestions of other URLs see an unchanged store). -/
theorem processContent_null_analysis_aborts
    (analyze : String → String → Option GeminiAnalysis)
    (pagePos : Position) (conceptPos : Nat → Position)
    (s : Storage) (c : CapturedContent)
    (h : analyze c.content c.url = none) :
    (processContent analyze pagePos conceptPos s c).1 = s := by
  unfold processContent
  cases hf : findSimilarContent s.content c.url with
  | some v => rfl
  | none => simp [h]

/-- Closed witness for `processContent_null_analysis_aborts`: an
always-failing analysis client on the sample capture. -/
theorem processContent_null_analysis_aborts_witness :
    (processContent (fun _ _ => none) pos0 (fun _ => pos0) emptyStorage
      sampleCaptured).1 = emptyStorage :=
  processContent_null_analysis_aborts (fun _ _ => none) pos0 (fun _ => pos0)
    emptyStorage sampleCaptured rfl

end Traily

namespace Traily

/-- Helper: the single-worker loop executes every queued task exactly once, in
queue order, regardless of task failures. -/
theorem processQueue_length (delay : Int) (st : ApiState)
    (tasks : List TaskSpec) :
    (processQueue delay st tasks).length = tasks.length := by
  induction tasks generalizing st with
  | nil => rfl
  | cons t rest ih => simp [processQueue, ih]

/-- C7: for every input text and URL, `analyzeContent` yields `null` (never a
propagated exception, witnessed by the result always being `Except.ok`) when
the API key is missing, the fetch rejects, the HTTP status is non-2xx, the
response lacks the expected shape, or the body fails to parse as JSON; and a
failing queued call never halts the queue — the worker still executes every
queued task. -/
theorem analyzeContent_failures_return_null
    (jsonParse : String → Except String Json)
    (fetchOracle : String → FetchOutcome) (apiKey content url : String) :
    (∃ r, analyzeContentE jsonParse fetchOracle apiKey content url = Except.ok r) ∧
    (analyzeContentE jsonParse fetchOracle "" content url = Except.ok none) ∧
    (∀ msg, fetchOracle (analysisPrompt content url) = FetchOutcome.networkError msg →
      analyzeContentE jsonParse fetchOracle apiKey content url = Except.ok none) ∧
    (∀ status statusText,
      fetchOracle (analysisPrompt content url) = FetchOutcome.httpError status statusText →
      analyzeContentE jsonParse fetchOracle apiKey content url = Except.ok none) ∧
    (fetchOracle (analysisPrompt content url) = FetchOutcome.badShape →
      analyzeContentE jsonParse fetchOracle apiKey content url = Except.ok none) ∧
    (∀ text err, fetchOracle (analysisPrompt content url) = FetchOutcome.responseText text →
      jsonParse (stripFences text) = Except.error err →
      analyzeContentE jsonParse fetchOracle apiKey content url = Except.ok none) ∧
    (∀ (delay : Int) (st : ApiState) (tasks : List TaskSpec),
      (processQueue delay st tasks).length = tasks.length) := by
  refine ⟨?_, ?_, ?_, ?_, ?_, ?_, processQueue_length⟩
  · unfold analyzeContentE
    by_cases hk : apiKey = ""
    · exact ⟨none, by simp [hk]⟩
    · have hk2 : (apiKey == "") = false := beq_eq_false_iff_ne.mpr hk
      cases ho : fetchOracle (analysisPrompt content url) <;>
        simp [hk2, apiCallResult, ho]
  · simp [analyzeContentE]
  · intro msg ho
    unfold analyzeContentE
    by_cases hk : apiKey = "" <;> simp [hk, ho, apiCallResult]
  · intro status statusText ho
    unfold analyzeContentE
    by_cases hk : apiKey = "" <;> simp [hk, ho, apiCallResult]
  · intro ho
    unfold analyzeContentE
    by_cases hk : apiKey = "" <;> simp [hk, ho, apiCallResult]
  · intro text err ho hp
    unfold analyzeContentE
    by_cases hk : apiKey = "" <;>
      simp [hk, ho, apiCallResult, parseGeminiResponse, hp]

/-- Closed witness for `analyzeContent_failures_return_null`: a network
rejection with a configured key yields `null`, not an exception. -/
theorem analyzeContent_failures_return_null_witness :
    analyzeContentE (fun _ => Except.error "bad json")
      (fun _ => FetchOutcome.networkError "offline") "AIzaSampleKey1234567890"
      "some text" "https://example.com/a" = Except.ok none :=
  (analyzeContent_failures_return_null (fun _ => Except.error "bad json")
    (fun _ => FetchOutcome.networkError "offline") "AIzaSampleKey1234567890"
    "some text" "https://example.com/a").2.2.1 "offline" rfl

end Traily

namespace Traily

/-- Helper: a queued task's fetch never starts before the minimum interval
has elapsed since `lastApiCall` (the `setTimeout` branch waits out exactly the
remainder). -/
theorem runApiTask_start_ge (delay : Int) (st : ApiState) (t : TaskSpec) :
    st.lastApiCall + delay ≤ (runApiTask delay st t).1.start := by
  unfold runApiTask
  dsimp only
  split_ifs with h
  · omega
  · omega

/-- Helper: when the fetch settles without rejecting, `lastApiCall` is updated
to the task's completion time. -/
theorem runApiTask_last (delay : Int) (st : ApiState) (t : TaskSpec)
    (h : isNetworkError t.outcome = false) :
    (runApiTask delay st t).2.lastApiCall = (runApiTask delay st t).1.finish := by
  obtain ⟨dur, outc⟩ := t
  cases outc <;> simp_all [isNetworkError, runApiTask]

/-- Helper: consecutive queue traces are separated by at least `delay`,
measured from the previous task's completion, whenever every fetch settles. -/
theorem processQueue_spacing (delay : Int) (st : ApiState)
    (tasks : List TaskSpec)
    (hall : ∀ t ∈ tasks, isNetworkError t.outcome = false) :
    ∀ i, i + 1 < (processQueue delay st tasks).length →
      ((processQueue delay st tasks).getD i dfltTrace).finish + delay ≤
        ((processQueue delay st tasks).getD (i + 1) dfltTrace).start := by
  induction tasks generalizing st with
  | nil => intro i hi; simp [processQueue] at hi
  | cons t rest ih =>
      intro i hi
      cases i with
      | zero =>
          cases rest with
          | nil => simp [processQueue, processQueue_length] at hi
          | cons t2 rest2 =>
              simp only [processQueue, List.getD_cons_zero, List.getD_cons_succ]
              have h1 := runApiTask_start_ge delay (runApiTask delay st t).2 t2
              have h2 := runApiTask_last delay st t (hall t (by simp))
              rw [h2] at h1
              exact h1
      | succ j =>
          simp only [processQueue, List.getD_cons_succ]
          apply ih (runApiTask delay st t).2
            (fun x hx => hall x (List.mem_cons_of_mem t hx)) j
          simpa [processQueue] using hi

/-- C6: concurrently issued analysis calls share one FIFO queue with a single
worker — the trace lists one execution per queued call, in enqueue order; when
every fetch settles, each request starts at least the configured minimum
interval after the previous call's completion; and the configured interval
defaults to 1000 ms. -/
theorem rate_limited_fifo_queue (delay : Int) (st : ApiState)
    (tasks : List TaskSpec)
    (hall : ∀ t ∈ tasks, isNetworkError t.outcome = false) :
    (processQueue delay st tasks).length = tasks.length ∧
    (∀ i, i + 1 < (processQueue delay st tasks).length →
      ((processQueue delay st tasks).getD i dfltTrace).finish + delay ≤
        ((processQueue delay st tasks).getD (i + 1) dfltTrace).start) ∧
    getConfig.rateLimitDelay = 1000 :=
  ⟨processQueue_length delay st tasks,
   processQueue_spacing delay st tasks hall, rfl⟩

/-- Closed witness for `rate_limited_fifo_queue`: two queued calls with the
default 1000 ms interval. -/
theorem rate_limited_fifo_queue_witness :
    (processQueue 1000 { now := 0, lastApiCall := 0 }
        [{ duration := 5, outcome := FetchOutcome.responseText "a" },
         { duration := 7, outcome := FetchOutcome.responseText "b" }]).length = 2 ∧
    (∀ i, i + 1 < (processQueue 1000 { now := 0, lastApiCall := 0 }
        [{ duration := 5, outcome := FetchOutcome.responseText "a" },
         { duration := 7, outcome := FetchOutcome.responseText "b" }]).length →
      ((processQueue 1000 { now := 0, lastApiCall := 0 }
        [{ duration := 5, outcome := FetchOutcome.responseText "a" },
         { duration := 7, outcome := FetchOutcome.responseText "b" }]).getD i dfltTrace).finish + 1000 ≤
        ((processQueue 1000 { now := 0, lastApiCall := 0 }
        [{ duration := 5, outcome := FetchOutcome.responseText "a" },
         { duration := 7, outcome := FetchOutcome.responseText "b" }]).getD (i + 1) dfltTrace).start) ∧
    getConfig.rateLimitDelay = 1000 :=
  rate_limited_fifo_queue 1000 { now := 0, lastApiCall := 0 }
    [{ duration := 5, outcome := FetchOutcome.responseText "a" },
     { duration := 7, outcome := FetchOutcome.responseText "b" }]
    (by decide)

end Traily

namespace Traily

/-- Helper: after `storeProcessedContent` on an archive under the 1000-entry
cap, exactly one archive entry carries the stored record's URL. -/
theorem storeProcessedContent_countP (existing : List ProcessedContent)
    (c : ProcessedContent) (h : existing.length < 1000) :
    (storeProcessedContent existing c).countP (fun item => item.url == c.url) = 1 := by
  unfold storeProcessedContent
  dsimp only
  have hperm := List.mergeSort_perm
    (existing.filter (fun item => item.url != c.url) ++ [c])
    (fun a b => b.timestamp ≤ a.timestamp)
  have hlen : (existing.filter (fun item => item.url != c.url) ++ [c]).length ≤ 1000 := by
    rw [List.length_append]
    have := List.length_filter_le (fun item => item.url != c.url) existing
    simp only [List.length_cons, List.length_nil]
    omega
  rw [List.take_of_length_le (by rw [hperm.length_eq]; exact hlen)]
  rw [hperm.countP_eq]
  rw [List.countP_append, List.countP_filter]
  have h0 : existing.countP
      (fun a => (a.url == c.url) && (a.url != c.url)) = 0 := by
    apply List.countP_eq_zero.mpr
    intro a _
    by_cases hu : a.url = c.url <;> simp [hu]
  simp [h0]

/-- Helper: `addGraphNode` leaves exactly one node carrying the added node's
identifier and does not change the count of any other identifier. -/
theorem addGraphNode_countP (nodes : List GraphNode) (node : GraphNode)
    (i : String) :
    (addGraphNode nodes node).countP (fun n => n.id == i) =
      if node.id = i then 1 else nodes.countP (fun n => n.id == i) := by
  unfold addGraphNode
  rw [List.countP_append, List.countP_filter]
  by_cases hi : node.id = i
  · subst hi
    have h0 : nodes.countP (fun a => (a.id == node.id) && (a.id != node.id)) = 0 := by
      apply List.countP_eq_zero.mpr
      intro a _
      by_cases hu : a.id = node.id <;> simp [hu]
    simp [h0]
  · have hcong : ∀ a : GraphNode,
        ((a.id == i) && (a.id != node.id)) = (a.id == i) := by
      intro a
      by_cases hai : a.id = i
      · subst hai
        simp [bne, Ne.symm hi]
      · simp [hai]
    simp only [hcong]
    have h1 : List.countP (fun n => n.id == i) [node] = 0 := by
      simp [hi]
    simp [hi, h1]

/-- Helper: `updateGraphNode` replaces a node by one with the same identifier,
so per-identifier node counts are unchanged. -/
theorem updateGraphNode_countP (nodes : List GraphNode) (node : GraphNode)
    (i : String) :
    (updateGraphNode nodes node).countP (fun n => n.id == i) =
      nodes.countP (fun n => n.id == i) := by
  induction nodes with
  | nil => rfl
  | cons n rest ih =>
      unfold updateGraphNode
      by_cases h : n.id = node.id
      · simp [h, List.countP_cons]
      · simp only [beq_eq_false_iff_ne.mpr h, Bool.false_eq_true, if_false,
          List.countP_cons, ih]

/-- Helper: a concept upsert never touches the content archive. -/
theorem processConceptNode_content (s : Storage) (c pid : String)
    (pos : Position) :
    (processConceptNode s c pid pos).content = s.content := by
  unfold processConceptNode
  dsimp only
  split <;> rfl

/-- Helper: a concept upsert preserves "exactly one node with identifier `i`"
for every identifier `i`. -/
theorem processConceptNode_nodes_countP (s : Storage) (c pid : String)
    (pos : Position) (i : String)
    (h : s.nodes.countP (fun n => n.id == i) = 1) :
    (processConceptNode s c pid pos).nodes.countP (fun n => n.id == i) = 1 := by
  unfold processConceptNode
  dsimp only
  split
  · dsimp only
    rw [addGraphNode_countP]
    split_ifs with hc
    · rfl
    · exact h
  · dsimp only
    rw [updateGraphNode_countP]
    exact h

/-- Helper: folding concept upserts over a concept list never touches the
content archive. -/
theorem foldl_processConceptNode_content (concepts : List (Nat × String))
    (s : Storage) (pid : String) (cpos : Nat → Position) :
    (concepts.foldl (fun st p => processConceptNode st p.2 pid (cpos p.1)) s).content
      = s.content := by
  induction concepts generalizing s with
  | nil => rfl
  | cons p rest ih =>
      rw [List.foldl_cons, ih, processConceptNode_content]

/-- Helper: folding concept upserts preserves "exactly one node with
identifier `i`". -/
theorem foldl_processConceptNode_countP (concepts : List (Nat × String))
    (s : Storage) (pid : String) (cpos : Nat → Position) (i : String)
    (h : s.nodes.countP (fun n => n.id == i) = 1) :
    ((concepts.foldl (fun st p => processConceptNode st p.2 pid (cpos p.1)) s).nodes.countP
      (fun n => n.id == i)) = 1 := by
  induction concepts generalizing s with
  | nil => exact h
  | cons p rest ih =>
      rw [List.foldl_cons]
      exact ih _ (processConceptNode_nodes_countP s p.2 pid (cpos p.1) i h)

/-- Helper: the graph update leaves the content archive unchanged. -/
theorem updateKnowledgeGraph_content (s : Storage) (c : CapturedContent)
    (a : GeminiAnalysis) (pagePos : Position) (conceptPos : Nat → Position) :
    (updateKnowledgeGraph s c a pagePos conceptPos).content = s.content := by
  unfold updateKnowledgeGraph
  rw [foldl_processConceptNode_content]

/-- Helper: after the graph update, exactly one node carries the page-node
identifier derived from the captured URL. -/
theorem updateKnowledgeGraph_page_countP (s : Storage) (c : CapturedContent)
    (a : GeminiAnalysis) (pagePos : Position) (conceptPos : Nat → Position) :
    (updateKnowledgeGraph s c a pagePos conceptPos).nodes.countP
      (fun n => n.id == generateNodeId c.url) = 1 := by
  unfold updateKnowledgeGraph
  apply foldl_processConceptNode_countP
  rw [addGraphNode_countP]
  simp

/-- Helper: a fresh URL with a successful analysis runs the full ingestion:
store the processed record, then update the graph. -/
theorem processContent_fresh
    (analyze : String → String → Option GeminiAnalysis)
    (pagePos : Position) (conceptPos : Nat → Position)
    (s : Storage) (c : CapturedContent) (a : GeminiAnalysis)
    (hnew : findSimilarContent s.content c.url = none)
    (ha : analyze c.content c.url = some a) :
    processContent analyze pagePos conceptPos s c =
      (updateKnowledgeGraph
        { s with content := storeProcessedContent s.content (storedRecord c a) }
        c a pagePos conceptPos,
       true) := by
  unfold processContent
  rw [hnew, ha]
  rfl

/-- Helper: an already-archived URL short-circuits the ingestion without
calling the analysis client. -/
theorem processContent_dedup
    (analyze : String → String → Option GeminiAnalysis)
    (pagePos : Position) (conceptPos : Nat → Position)
    (s : Storage) (c : CapturedContent) (v : ProcessedContent)
    (hfound : findSimilarContent s.content c.url = some v) :
    processContent analyze pagePos conceptPos s c = (s, false) := by
  unfold processContent
  rw [hfound]

/-- C1: ingesting two captures of the same URL (contents may differ) leaves
exactly one ProcessedContent record and exactly one page GraphNode for that
URL: the second ingestion finds the existing record by URL and returns the
state unchanged with the analysis client not invoked (the returned flag is
`false`), performing no re-analysis and no graph update. -/
theorem ingestion_dedup_by_url
    (analyze : String → String → Option GeminiAnalysis)
    (pagePos : Position) (conceptPos : Nat → Position)
    (pagePos2 : Position) (conceptPos2 : Nat → Position)
    (s : Storage) (c1 c2 : CapturedContent) (a : GeminiAnalysis)
    (hurl : c2.url = c1.url)
    (hnew : findSimilarContent s.content c1.url = none)
    (hcap : s.content.length < 1000)
    (ha : analyze c1.content c1.url = some a) :
    processContent analyze pagePos2 conceptPos2
        (processContent analyze pagePos conceptPos s c1).1 c2 =
      ((processContent analyze pagePos conceptPos s c1).1, false) ∧
    (processContent analyze pagePos conceptPos s c1).1.content.countP
        (fun item => item.url == c1.url) = 1 ∧
    (processContent analyze pagePos conceptPos s c1).1.nodes.countP
        (fun n => n.id == generateNodeId c1.url) = 1 := by
  have h1 := processContent_fresh analyze pagePos conceptPos s c1 a hnew ha
  have hcontent : (processContent analyze pagePos conceptPos s c1).1.content =
      storeProcessedContent s.content (storedRecord c1 a) := by
    rw [h1]
    exact updateKnowledgeGraph_content _ c1 a pagePos conceptPos
  have hcount : (processContent analyze pagePos conceptPos s c1).1.content.countP
      (fun item => item.url == c1.url) = 1 := by
    rw [hcontent]
    have hc := storeProcessedContent_countP s.content (storedRecord c1 a) hcap
    simpa [storedRecord] using hc
  have hnodes : (processContent analyze pagePos conceptPos s c1).1.nodes.countP
      (fun n => n.id == generateNodeId c1.url) = 1 := by
    rw [h1]
    exact updateKnowledgeGraph_page_countP _ c1 a pagePos conceptPos
  have hfound : ∃ v, findSimilarContent
      (processContent analyze pagePos conceptPos s c1).1.content c2.url = some v := by
    rw [hurl]
    rcases hf : findSimilarContent
        (processContent analyze pagePos conceptPos s c1).1.content c1.url with _ | v
    · exfalso
      unfold findSimilarContent at hf
      have h0 : (processContent analyze pagePos conceptPos s c1).1.content.countP
          (fun item => item.url == c1.url) = 0 :=
        List.countP_eq_zero.mpr (fun x hx => List.find?_eq_none.mp hf x hx)
      omega
    · exact ⟨v, rfl⟩
  obtain ⟨v, hv⟩ := hfound
  exact ⟨processContent_dedup analyze pagePos2 conceptPos2 _ c2 v hv, hcount, hnodes⟩

/-- Closed witness for `ingestion_dedup_by_url`: the sample page captured
twice with different content, against an empty store and an analysis client
returning the sample analysis. -/
theorem ingestion_dedup_by_url_witness :
    processContent (fun _ _ => some sampleAnalysis) pos0 (fun _ => pos0)
        (processContent (fun _ _ => some sampleAnalysis) pos0 (fun _ => pos0)
          emptyStorage sampleCaptured).1 sampleCaptured2 =
      ((processContent (fun _ _ => some sampleAnalysis) pos0 (fun _ => pos0)
          emptyStorage sampleCaptured).1, false) ∧
    (processContent (fun _ _ => some sampleAnalysis) pos0 (fun _ => pos0)
        emptyStorage sampleCaptured).1.content.countP
        (fun item => item.url == sampleCaptured.url) = 1 ∧
    (processContent (fun _ _ => some sampleAnalysis) pos0 (fun _ => pos0)
        emptyStorage sampleCaptured).1.nodes.countP
        (fun n => n.id == generateNodeId sampleCaptured.url) = 1 :=
  ingestion_dedup_by_url (fun _ _ => some sampleAnalysis) pos0 (fun _ => pos0)
    pos0 (fun _ => pos0) emptyStorage sampleCaptured sampleCaptured2
    sampleAnalysis rfl rfl (by simp [emptyStorage]) rfl

end Traily
